import Mathlib

/-!
Shallow embedding of `logger/logger_writer.go` (CrowdStrike/golog): an
asynchronous logging pipeline built from a fixed pool of reusable message
buffers, a bounded pending-message channel, a single writer goroutine that
drains the channel into syslog or a custom socket, and a shutdown protocol
(`drainTheQueue`) that closes the channel and waits for the writer.

Two layers are given, both translated from the source:

* a sequential functional model of the producer-side call chain
  (`queueMsg` / `queueMsgDirect` / `freeMsg`) acting on the global state,
  for claims about a single call's return value and effect;
* a small-step transition relation `Step` decomposing the same code at its
  atomic channel operations (one constructor per select/branch outcome),
  with producers, the writer goroutine, `SetCustomSocket`, `SetLogName`
  and `drainTheQueue` interleaving, for the concurrency claims.

Machine integers: the four diagnostic counters are Go `uint64` updated with
`atomic.AddUint64`, modelled as `Nat` with an explicit wrap `% 2 ^ 64`
(`inc64`).  Channel lengths are list lengths (`Nat`).
-/

/-- `NumMessages` from the source: number of allowed log messages; it is both
the size of the fixed message pool and the capacity of the two channels. -/
def NumMessages : Nat := 10 * 1024

/-- `MaxFreeMsgSize` from the source: maximum size of a free pooled msg. -/
def MaxFreeMsgSize : Nat := 8 * 1024

/-- Wrap-around increment of a Go `uint64` counter (`atomic.AddUint64(_, 1)`). -/
def inc64 (n : Nat) : Nat := (n + 1) % 2 ^ 64

/-- `<syslog.h>` constant `LOG_ERR` (3). -/
def LOG_ERR : Nat := 3

/-- `<syslog.h>` constant `LOG_WARNING` (4). -/
def LOG_WARNING : Nat := 4

/-- `<syslog.h>` constant `LOG_INFO` (6). -/
def LOG_INFO : Nat := 6

/-- `<syslog.h>` constant `LOG_DEBUG` (7). -/
def LOG_DEBUG : Nat := 7

/-- `<syslog.h>` facility constant `LOG_USER` (1 shifted left by 3 = 8). -/
def LOG_USER : Nat := 8

/-- Modelled from the spec: the severity enumeration `Level` (`Levels.Access`,
`Levels.Off`, ..) is declared in a repository file that is not part of the
given sources; the spec lists exactly the seven recognized severities, which
are also exactly the keys of the `levelSysLog` / `levelMapFmt` tables in the
given source. -/
inductive Level where
  | Access
  | Off
  | Panic
  | Error
  | Warn
  | Info
  | Debug
deriving DecidableEq

/-- The `levelSysLog` map from the source: mapping of the logger's levels to
syslog priority values. -/
def levelSysLog : Level → Nat
  | .Access => LOG_INFO
  | .Off => LOG_DEBUG
  | .Panic => LOG_ERR
  | .Error => LOG_ERR
  | .Warn => LOG_WARNING
  | .Info => LOG_INFO
  | .Debug => LOG_DEBUG

/-- The `levelMapFmt` map from the source.  Note that every entry already
carries a trailing space after the closing bracket. -/
def levelMapFmt : Level → String
  | .Access => "[Access] "
  | .Off => "[Off] "
  | .Panic => "[Panic] "
  | .Error => "[Error] "
  | .Warn => "[Warn] "
  | .Info => "[Info] "
  | .Debug => "[Debug] "

/-- The bare name of a level, used to state rendered-output claims without
mentioning `levelMapFmt` itself. -/
def levelName : Level → String
  | .Access => "Access"
  | .Off => "Off"
  | .Panic => "Panic"
  | .Error => "Error"
  | .Warn => "Warn"
  | .Info => "Info"
  | .Debug => "Debug"

/-- A `bytes.Buffer`: its visible content plus the capacity of its backing
array.  Content is kept as a `String` (Go writes byte slices of rendered
text; the terminator byte 0 is the character of code point 0).  Capacity
only ever matters through the comparison with `MaxFreeMsgSize` and through
`Reset` (which keeps it) versus replacement by a zero value (which zeroes
it); growth on write is modelled as the minimal growth to the new length. -/
structure GoBuffer where
  data : String
  cap : Nat
deriving DecidableEq

/-- `Buffer.Write`: append the bytes, growing the backing array if needed. -/
def GoBuffer.write (b : GoBuffer) (s : String) : GoBuffer :=
  { data := b.data ++ s, cap := max b.cap (b.data.length + s.length) }

/-- `Buffer.WriteByte`: append one byte. -/
def GoBuffer.writeByte (b : GoBuffer) (c : Char) : GoBuffer :=
  b.write (String.singleton c)

/-- `Buffer.Reset`: empty the buffer but retain the underlying storage. -/
def GoBuffer.reset (b : GoBuffer) : GoBuffer :=
  { data := "", cap := b.cap }

/-- The `logMessage` struct from the source: an embedded `bytes.Buffer` plus
a syslog `level`.  The ghost field `id` stands for the object's address:
the pool is filled once with `NumMessages` distinct objects and every later
operation moves or mutates an existing object, never creates one. -/
structure logMessage where
  id : Nat
  buffer : GoBuffer
  level : Nat
deriving DecidableEq

/-- The error values declared in the source (`ErrLogFullBuf`,
`ErrFreeMessageOverflow`, `ErrFreeMessageUnderflow`, `ErrUnavailable`).
`FreeMessageUnderflow` is declared by the source but returned nowhere. -/
inductive GoError where
  | LogFullBuf
  | FreeMessageOverflow
  | FreeMessageUnderflow
  | Unavailable
deriving DecidableEq

/-- The package-level mutable state of `logger_writer.go`.

`freeMessages` and `messages` are the two buffered channels (front of the
list = front of the channel).  `prodHolding` are messages taken from
`freeMessages` by producer goroutines that have not yet finished their
`queueMsgDirect` call; `writerHolding` is the message the writer goroutine
received from `messages` and has not yet released.  `messagesClosed` records
`close(messages)`; `panicked` records a Go runtime panic (close of a closed
channel).  `enqueuedTrace` / `writtenTrace` are ghost history variables:
the rendered contents pushed into `messages`, and the contents the writer
has (attempted to) write, in order. -/
structure PState where
  freeMessages : List logMessage
  messages : List logMessage
  messagesClosed : Bool
  shuttingDown : Bool
  prodHolding : List logMessage
  writerHolding : Option logMessage
  writerExited : Bool
  drainReturned : Bool
  socketConfigured : Bool
  socketClosed : Bool
  panicked : Bool
  logCount : Nat
  dropCount : Nat
  errCount : Nat
  enqueuedTrace : List String
  writtenTrace : List String
deriving DecidableEq

/-- `freeMsg` from the source: release a message back to the free channel;
the buffered send succeeds iff the channel is below capacity, otherwise the
error counter is bumped and `ErrFreeMessageOverflow` is returned (and the
message object falls out of circulation). -/
def freeMsg (msg : logMessage) (s : PState) : Option GoError × PState :=
  if s.freeMessages.length < NumMessages then
    (none, { s with freeMessages := s.freeMessages ++ [msg] })
  else
    (some GoError.FreeMessageOverflow, { s with errCount := inc64 s.errCount })

/-- Lines 138-147 of the source: mutate an acquired message in place.  The
level is set to `levelSysLog[Levels.Debug]` — the table is looked up at the
constant key `Levels.Debug`, not at the severity of the log call (the call
level never reaches `queueMsgDirect`).  Then the rendered entry and a C
null terminator are appended.  The source's `if msg.Write(..); err != nil`
and `if msg.WriteByte(0); err != nil` branches test the enclosing named
return `err`, which is still nil at that point (the results of `Write` and
`WriteByte` are discarded), so neither branch can fire and neither is
modelled. -/
def renderMsg (msg : logMessage) (logEntry : String) : logMessage :=
  { msg with
    level := levelSysLog Level.Debug,
    buffer := (msg.buffer.write logEntry).writeByte (Char.ofNat 0) }

/-- `queueMsgDirect` from the source, as one sequential call: under the read
lock, if not shutting down bump `logCount`, try to receive a free message
(select with default: on an empty channel bump `dropCount` and return a nil
error), render it, and try to send it on `messages` (select with default:
on a full channel bump `errCount`, return `ErrLogFullBuf`, and the deferred
cleanup releases the message back with `freeMsg`).  When shutting down the
call returns `ErrUnavailable` untouched. -/
def queueMsgDirect (logEntry : String) (s : PState) : Option GoError × PState :=
  if s.shuttingDown = false then
    let s1 : PState := { s with logCount := inc64 s.logCount }
    match s1.freeMessages with
    | [] => (none, { s1 with dropCount := inc64 s1.dropCount })
    | msg :: rest =>
      let s2 : PState := { s1 with freeMessages := rest }
      let msg1 : logMessage := renderMsg msg logEntry
      if s2.messages.length < NumMessages then
        (none, { s2 with
                  messages := s2.messages ++ [msg1],
                  enqueuedTrace := s2.enqueuedTrace ++ [msg1.buffer.data] })
      else
        (some GoError.LogFullBuf,
          (freeMsg msg1 { s2 with errCount := inc64 s2.errCount }).2)
  else
    (some GoError.Unavailable, s)

/-- `queueMsg` from the source: `fmt.Sprintf("%s %s %s", levelMapFmt[lvl],
prefix, fmt.Sprintf(format, v...))`.  The printf-substituted body is taken
as the pre-rendered string `body`. -/
def queueMsg (lvl : Level) (pfx body : String) (s : PState) :
    Option GoError × PState :=
  queueMsgDirect (levelMapFmt lvl ++ " " ++ pfx ++ " " ++ body) s

/-- The priority argument passed to `csyslog` by `write`:
`C.LOG_USER | msg.level`. -/
def writeSyslogPriority (msg : logMessage) : Nat :=
  LOG_USER ||| msg.level

/-- The bytes `writeCustomSocket` puts on the socket:
`fmt.Sprintf("<%d>", C.LOG_USER|msg.level)` joined with `msg.Bytes()`. -/
def writeCustomSocketBytes (msg : logMessage) : String :=
  "<" ++ toString (LOG_USER ||| msg.level) ++ ">" ++ msg.buffer.data

/-- Lines 201-205 of the source, the writer's recycling of a message after a
write: if the buffer capacity exceeds `MaxFreeMsgSize` the whole struct is
overwritten with the zero value `logMessage{}` (fresh zero-capacity buffer,
level 0; the object — `id` — is the same), otherwise `Reset` empties the
buffer in place, keeping its storage and its level field. -/
def recycleMsg (msg : logMessage) : logMessage :=
  if msg.buffer.cap > MaxFreeMsgSize then
    { id := msg.id, buffer := { data := "", cap := 0 }, level := 0 }
  else
    { msg with buffer := msg.buffer.reset }

/-- The pool contents created by the source's `init`: a slice of
`NumMessages` zero-valued `logMessage`s, each pushed with `freeMsg`. -/
def initMessages : List logMessage :=
  (List.range NumMessages).map (fun i => { id := i, buffer := { data := "", cap := 0 }, level := 0 })

/-- The state after the source's `init` has run: the free channel holds the
`NumMessages` fresh messages, everything else is empty / zero, and the
writer goroutine has been started. -/
def initPState : PState :=
  { freeMessages := initMessages
    messages := []
    messagesClosed := false
    shuttingDown := false
    prodHolding := []
    writerHolding := none
    writerExited := false
    drainReturned := false
    socketConfigured := false
    socketClosed := false
    panicked := false
    logCount := 0
    dropCount := 0
    errCount := 0
    enqueuedTrace := []
    writtenTrace := [] }

/-- Folding `freeMsg` over a list of messages, as the source's `init` loop
does (`for i := range msgArr { if err := freeMsg(&msgArr[i]); err != nil {
break } }`; the break is unreachable because the channel capacity equals
the slice length, which the fidelity lemma `init_fill_pool` shows). -/
def fillPool (l : List logMessage) (s : PState) : PState :=
  l.foldl (fun st m => (freeMsg m st).2) s

/-- The message objects currently in circulation: free-channel contents,
messages held by producers mid-call, the pending channel, and the message
the writer goroutine currently holds. -/
def circList (s : PState) : List logMessage :=
  s.freeMessages ++ s.prodHolding ++ s.messages ++ s.writerHolding.toList

/-- The multiset of object identities (addresses) in circulation. -/
def circIds (s : PState) : Multiset Nat :=
  ((circList s).map logMessage.id : List Nat)

/-- The identities created by `init`. -/
def allIds : Multiset Nat :=
  (List.range NumMessages : List Nat)

/-- One atomic step of the pipeline.  Producer calls to `queueMsgDirect` are
split at their two channel operations (the receive from `freeMessages` and
the send on `messages`), since the `RWMutex` read lock they hold is shared
and does not serialize producers against each other; it only excludes
`drainTheQueue`, whose constructors therefore require `prodHolding = []`.
The writer loop is split at its channel receive and at the release of the
processed message.  `fail` on `writerProcess` is the outcome of the blocking
`csyslog` / socket write (an I/O error bumps `errCount`; the message is
recycled either way and the writer carries on). -/
inductive Step : PState → PState → Prop where
  | acquireOk (s : PState) (m : logMessage) (rest : List logMessage)
      (hsd : s.shuttingDown = false) (hf : s.freeMessages = m :: rest) :
      Step s { s with
        freeMessages := rest,
        prodHolding := s.prodHolding ++ [m],
        logCount := inc64 s.logCount }
  | acquireDrop (s : PState)
      (hsd : s.shuttingDown = false) (hf : s.freeMessages = []) :
      Step s { s with
        logCount := inc64 s.logCount,
        dropCount := inc64 s.dropCount }
  | enqueueOk (s : PState) (m : logMessage) (ph1 ph2 : List logMessage) (entry : String)
      (hph : s.prodHolding = ph1 ++ m :: ph2)
      (hq : s.messages.length < NumMessages) :
      Step s { s with
        prodHolding := ph1 ++ ph2,
        messages := s.messages ++ [renderMsg m entry],
        enqueuedTrace := s.enqueuedTrace ++ [(renderMsg m entry).buffer.data] }
  | enqueueFull (s : PState) (m : logMessage) (ph1 ph2 : List logMessage) (entry : String)
      (hph : s.prodHolding = ph1 ++ m :: ph2)
      (hq : ¬ s.messages.length < NumMessages) :
      Step s (freeMsg (renderMsg m entry)
        { s with prodHolding := ph1 ++ ph2, errCount := inc64 s.errCount }).2
  | dequeueMsg (s : PState) (m : logMessage) (rest : List logMessage)
      (hq : s.messages = m :: rest) (hw : s.writerHolding = none) :
      Step s { s with messages := rest, writerHolding := some m }
  | writerProcess (s : PState) (m : logMessage) (fail : Bool)
      (hw : s.writerHolding = some m) :
      Step s (freeMsg (recycleMsg m)
        { s with
          writerHolding := none,
          writtenTrace := s.writtenTrace ++ [m.buffer.data],
          errCount := if fail then inc64 s.errCount else s.errCount }).2
  | writerExit (s : PState)
      (hc : s.messagesClosed = true) (hq : s.messages = [])
      (hw : s.writerHolding = none) (he : s.writerExited = false) :
      Step s { s with
        writerExited := true,
        socketClosed := if s.socketConfigured then true else s.socketClosed }
  | drainStart (s : PState)
      (hph : s.prodHolding = []) (hc : s.messagesClosed = false) :
      Step s { s with shuttingDown := true, messagesClosed := true }
  | drainAgain (s : PState)
      (hph : s.prodHolding = []) (hc : s.messagesClosed = true) :
      Step s { s with panicked := true }
  | drainReturn (s : PState)
      (hsd : s.shuttingDown = true) (he : s.writerExited = true) :
      Step s { s with drainReturned := true }
  | setSocket (s : PState) :
      Step s { s with socketConfigured := true, socketClosed := false }
  | configError (s : PState) :
      Step s { s with errCount := inc64 s.errCount }

/-- States reachable from the post-`init` state. -/
inductive Reachable : PState → Prop where
  | refl : Reachable initPState
  | step {s s' : PState} : Reachable s → Step s s' → Reachable s'

/-- The inductive invariant of the pipeline. -/
structure LogInv (s : PState) : Prop where
  conserve : circIds s = allIds
  trace : s.enqueuedTrace =
    s.writtenTrace ++ (s.writerHolding.toList.map (fun m => m.buffer.data)) ++
      s.messages.map (fun m => m.buffer.data)
  sdHolding : s.shuttingDown = true → s.prodHolding = []
  sdClosed : s.shuttingDown = s.messagesClosed
  exited : s.writerExited = true →
    s.messagesClosed = true ∧ s.messages = [] ∧ s.writerHolding = none
  returned : s.drainReturned = true → s.writerExited = true

/-- A sequence of `queueMsgDirect` calls run back to back: the list of
returned errors and the final state. -/
def runCalls (entries : List String) (s : PState) : List (Option GoError) × PState :=
  match entries with
  | [] => ([], s)
  | e :: es =>
    let r := queueMsgDirect e s
    let rs := runCalls es r.2
    (r.1 :: rs.1, rs.2)

/-- A fresh zero-valued message object, as `init` creates them. -/
def mkMsg (i : Nat) : logMessage :=
  { id := i, buffer := { data := "", cap := 0 }, level := 0 }

/-- A state whose pool holds a single fresh message (used to evaluate single
calls at concrete inputs). -/
def oneMsgState : PState :=
  { initPState with freeMessages := [mkMsg 0] }

/-- A state whose pool is exhausted. -/
def emptyPoolState : PState :=
  { initPState with freeMessages := [] }

/-- A state with one free message and a pending channel at capacity (only
such a state can exercise the `ErrLogFullBuf` branch). -/
def fullQueueState : PState :=
  { initPState with
    freeMessages := [mkMsg 0],
    messages := List.replicate NumMessages (mkMsg 1) }

/-- Concrete execution for the shutdown scenario: configure the socket. -/
def sockState : PState :=
  { initPState with socketConfigured := true, socketClosed := false }

/-- .. then `drainTheQueue` sets the flag and closes the channel. -/
def drainState : PState :=
  { sockState with shuttingDown := true, messagesClosed := true }

/-- .. the writer loop sees the closed, drained channel, closes the socket
and exits. -/
def exitState : PState :=
  { drainState with writerExited := true, socketClosed := true }

/-- .. `wg.Wait` returns and the `drainTheQueue` call completes. -/
def returnState : PState :=
  { exitState with drainReturned := true }

/-- .. a second `drainTheQueue` call closes the already-closed channel: Go
runtime panic. -/
def panicState : PState :=
  { returnState with panicked := true }

theorem fillPool_append (s : PState)
    (l : List logMessage) (h : s.freeMessages.length + l.length ≤ NumMessages) :
    fillPool l s = { s with freeMessages := s.freeMessages ++ l } := by
  induction l generalizing s with
  | nil => simp [fillPool]
  | cons m rest ih =>
    have hlt : s.freeMessages.length < NumMessages := by
      simp at h; omega
    have hstep : (freeMsg m s).2 = { s with freeMessages := s.freeMessages ++ [m] } := by
      simp [freeMsg, hlt]
    have hrec := ih { s with freeMessages := s.freeMessages ++ [m] } (by simp at h ⊢; omega)
    simp only [fillPool, List.foldl_cons] at hrec ⊢
    rw [hstep, hrec]
    simp only [List.append_assoc, List.singleton_append]

/-- Fidelity of `initPState`: running the source's `init` fill loop over the
fresh message slice on the empty state produces exactly the declared initial
state (every `freeMsg` send succeeds). -/
theorem init_fill_pool :
    fillPool initMessages { initPState with freeMessages := [] } = initPState := by
  have h := fillPool_append { initPState with freeMessages := [] } initMessages
    (by simp [initMessages, NumMessages])
  simp at h
  rw [h]
  rfl

theorem inv_init : LogInv initPState := by
  refine ⟨?_, ?_, ?_, ?_, ?_, ?_⟩ <;>
    simp [initPState, circIds, circList, allIds, initMessages, List.map_map]
  have hcomp : (logMessage.id ∘ fun i : Nat =>
      ({ id := i, buffer := { data := "", cap := 0 }, level := 0 } : logMessage)) =
      fun i : Nat => i := rfl
  rw [hcomp, List.map_id']

/-- Counting consequence of `LogInv.conserve`: the number of objects in
circulation is exactly `NumMessages`. -/
theorem conserve_card {s : PState} (h : circIds s = allIds) :
    s.freeMessages.length + s.prodHolding.length + s.messages.length +
      s.writerHolding.toList.length = NumMessages := by
  have hc := congrArg Multiset.card h
  rw [circIds, allIds, Multiset.coe_card, Multiset.coe_card] at hc
  simp [circList] at hc
  omega

@[simp]
theorem renderMsg_id (m : logMessage) (e : String) : (renderMsg m e).id = m.id := rfl

@[simp]
theorem recycleMsg_id (m : logMessage) : (recycleMsg m).id = m.id := by
  rw [recycleMsg]; split <;> rfl

@[simp]
theorem freeMsg_messages (m : logMessage) (s : PState) :
    (freeMsg m s).2.messages = s.messages := by
  rw [freeMsg]; split <;> rfl

@[simp]
theorem freeMsg_prodHolding (m : logMessage) (s : PState) :
    (freeMsg m s).2.prodHolding = s.prodHolding := by
  rw [freeMsg]; split <;> rfl

@[simp]
theorem freeMsg_writerHolding (m : logMessage) (s : PState) :
    (freeMsg m s).2.writerHolding = s.writerHolding := by
  rw [freeMsg]; split <;> rfl

@[simp]
theorem freeMsg_messagesClosed (m : logMessage) (s : PState) :
    (freeMsg m s).2.messagesClosed = s.messagesClosed := by
  rw [freeMsg]; split <;> rfl

@[simp]
theorem freeMsg_shuttingDown (m : logMessage) (s : PState) :
    (freeMsg m s).2.shuttingDown = s.shuttingDown := by
  rw [freeMsg]; split <;> rfl

@[simp]
theorem freeMsg_writerExited (m : logMessage) (s : PState) :
    (freeMsg m s).2.writerExited = s.writerExited := by
  rw [freeMsg]; split <;> rfl

@[simp]
theorem freeMsg_drainReturned (m : logMessage) (s : PState) :
    (freeMsg m s).2.drainReturned = s.drainReturned := by
  rw [freeMsg]; split <;> rfl

@[simp]
theorem freeMsg_enqueuedTrace (m : logMessage) (s : PState) :
    (freeMsg m s).2.enqueuedTrace = s.enqueuedTrace := by
  rw [freeMsg]; split <;> rfl

@[simp]
theorem freeMsg_writtenTrace (m : logMessage) (s : PState) :
    (freeMsg m s).2.writtenTrace = s.writtenTrace := by
  rw [freeMsg]; split <;> rfl

@[simp]
theorem freeMsg_dropCount (m : logMessage) (s : PState) :
    (freeMsg m s).2.dropCount = s.dropCount := by
  rw [freeMsg]; split <;> rfl

@[simp]
theorem freeMsg_logCount (m : logMessage) (s : PState) :
    (freeMsg m s).2.logCount = s.logCount := by
  rw [freeMsg]; split <;> rfl

/-- When the free channel is below capacity, `freeMsg` is the plain append. -/
theorem freeMsg_of_lt (m : logMessage) (s : PState)
    (h : s.freeMessages.length < NumMessages) :
    freeMsg m s = (none, { s with freeMessages := s.freeMessages ++ [m] }) := by
  simp [freeMsg, h]

/-- Preservation of the pipeline invariant under every atomic step. -/
theorem inv_step {s s' : PState} (hs : LogInv s) (h : Step s s') : LogInv s' := by
  obtain ⟨hconserve, htrace, hsdh, hsdc, hex, hret⟩ := hs
  cases h with
  | acquireOk m rest hsd hf =>
    refine ⟨?_, ?_, ?_, ?_, ?_, ?_⟩
    · rw [← hconserve]
      simp only [circIds, circList, hf, List.map_append, List.map_cons, List.map_nil,
        Option.toList, ← Multiset.cons_coe, ← Multiset.coe_add, ← Multiset.singleton_add,
        Multiset.coe_nil]
      abel
    · exact htrace
    · intro hh
      exact absurd hh (by simp [hsd])
    · exact hsdc
    · exact hex
    · exact hret
  | acquireDrop hsd hf =>
    exact ⟨hconserve, htrace, hsdh, hsdc, hex, hret⟩
  | enqueueOk m ph1 ph2 entry hph hq =>
    refine ⟨?_, ?_, ?_, ?_, ?_, ?_⟩
    · rw [← hconserve]
      simp only [circIds, circList, hph, List.map_append, List.map_cons, List.map_nil,
        renderMsg_id, Option.toList, ← Multiset.cons_coe, ← Multiset.coe_add,
        ← Multiset.singleton_add, Multiset.coe_nil]
      abel
    · rw [htrace]
      simp [List.map_append]
    · intro hh
      have h0 := hsdh hh
      rw [hph] at h0
      exact absurd h0 (by simp)
    · exact hsdc
    · intro hh
      have h0 := hsdh (hsdc.trans (hex hh).1)
      rw [hph] at h0
      exact absurd h0 (by simp)
    · exact hret
  | enqueueFull m ph1 ph2 entry hph hq =>
    exfalso
    have hcard := conserve_card hconserve
    rw [hph] at hcard
    simp at hcard
    omega
  | dequeueMsg m rest hq hw =>
    refine ⟨?_, ?_, ?_, ?_, ?_, ?_⟩
    · rw [← hconserve]
      simp only [circIds, circList, hq, hw, List.map_append, List.map_cons, List.map_nil,
        Option.toList, ← Multiset.cons_coe, ← Multiset.coe_add, ← Multiset.singleton_add,
        Multiset.coe_nil]
      abel
    · rw [htrace, hq, hw]
      simp
    · exact hsdh
    · exact hsdc
    · intro hh
      have h0 := (hex hh).2.1
      rw [hq] at h0
      exact absurd h0 (by simp)
    · exact hret
  | writerProcess m fail hw =>
    have hcard := conserve_card hconserve
    rw [hw] at hcard
    simp at hcard
    have hlt : s.freeMessages.length < NumMessages := by omega
    rw [freeMsg_of_lt _ _ (by simpa using hlt)]
    refine ⟨?_, ?_, ?_, ?_, ?_, ?_⟩
    · rw [← hconserve]
      simp only [circIds, circList, hw, List.map_append, List.map_cons, List.map_nil,
        recycleMsg_id, Option.toList, ← Multiset.cons_coe, ← Multiset.coe_add,
        ← Multiset.singleton_add, Multiset.coe_nil]
      abel
    · rw [htrace, hw]
      simp
    · exact hsdh
    · exact hsdc
    · intro hh
      have h0 := (hex hh).2.2
      rw [hw] at h0
      exact absurd h0 (by simp)
    · exact hret
  | writerExit hc hq hw he =>
    refine ⟨hconserve, htrace, hsdh, hsdc, ?_, ?_⟩
    · intro _
      exact ⟨hc, hq, hw⟩
    · intro _
      rfl
  | drainStart hph hc =>
    refine ⟨hconserve, htrace, ?_, rfl, ?_, ?_⟩
    · intro _
      exact hph
    · intro hh
      exact ⟨rfl, (hex hh).2.1, (hex hh).2.2⟩
    · exact hret
  | drainAgain hph hc =>
    exact ⟨hconserve, htrace, hsdh, hsdc, hex, hret⟩
  | drainReturn hsd he =>
    refine ⟨hconserve, htrace, hsdh, hsdc, hex, ?_⟩
    intro _
    exact he
  | setSocket =>
    exact ⟨hconserve, htrace, hsdh, hsdc, hex, hret⟩
  | configError =>
    exact ⟨hconserve, htrace, hsdh, hsdc, hex, hret⟩

/-- Every reachable state satisfies the pipeline invariant. -/
theorem reachable_inv {s : PState} (h : Reachable s) : LogInv s := by
  induction h with
  | refl => exact inv_init
  | step _ hstep ih => exact inv_step ih hstep

/-- Shape of a successful `queueMsgDirect` call: not shutting down, a free
message available, pending channel below capacity — the message is rendered
and moved onto the pending channel, `logCount` is bumped, and the returned
error is nil. -/
theorem queueMsgDirect_enqueue (entry : String) (s : PState) (m : logMessage)
    (rest : List logMessage) (hsd : s.shuttingDown = false)
    (hf : s.freeMessages = m :: rest) (hq : s.messages.length < NumMessages) :
    queueMsgDirect entry s =
      (none, { s with
        logCount := inc64 s.logCount,
        freeMessages := rest,
        messages := s.messages ++ [renderMsg m entry],
        enqueuedTrace := s.enqueuedTrace ++ [(renderMsg m entry).buffer.data] }) := by
  simp [queueMsgDirect, hsd, hf, hq]

/-- Shape of a pool-exhausted `queueMsgDirect` call: not shutting down and no
free message — `dropCount` is bumped and the returned error is nil (the
call does not report the drop to its caller). -/
theorem queueMsgDirect_drop (entry : String) (s : PState)
    (hsd : s.shuttingDown = false) (hf : s.freeMessages = []) :
    queueMsgDirect entry s =
      (none, { s with
        logCount := inc64 s.logCount,
        dropCount := inc64 s.dropCount }) := by
  simp [queueMsgDirect, hsd, hf]

/-- Shape of a `queueMsgDirect` call during shutdown: `ErrUnavailable`, state
untouched. -/
theorem queueMsgDirect_unavailable (entry : String) (s : PState)
    (hsd : s.shuttingDown = true) :
    queueMsgDirect entry s = (some GoError.Unavailable, s) := by
  simp [queueMsgDirect, hsd]

/-- Shape of a `queueMsgDirect` call that acquires a message but finds the
pending channel full: `errCount` is bumped, `ErrLogFullBuf` is returned, and
the deferred cleanup hands the rendered message to `freeMsg`. -/
theorem queueMsgDirect_full (entry : String) (s : PState) (m : logMessage)
    (rest : List logMessage) (hsd : s.shuttingDown = false)
    (hf : s.freeMessages = m :: rest) (hq : ¬ s.messages.length < NumMessages) :
    queueMsgDirect entry s =
      (some GoError.LogFullBuf,
        (freeMsg (renderMsg m entry)
          { s with
            logCount := inc64 s.logCount,
            freeMessages := rest,
            errCount := inc64 s.errCount }).2) := by
  simp [queueMsgDirect, hsd, hf, hq]

theorem reach_sock : Reachable sockState :=
  Reachable.step Reachable.refl (Step.setSocket initPState)

theorem reach_drain : Reachable drainState :=
  Reachable.step reach_sock (Step.drainStart sockState rfl rfl)

theorem reach_exit : Reachable exitState :=
  Reachable.step reach_drain (Step.writerExit drainState rfl rfl rfl rfl)

theorem reach_return : Reachable returnState :=
  Reachable.step reach_exit (Step.drainReturn exitState rfl rfl)

theorem reach_panic : Reachable panicState :=
  Reachable.step reach_return (Step.drainAgain returnState rfl rfl)

/-- C9: when the Writer recycles a Message after a write, a buffer whose
capacity is at most the 8 KiB threshold keeps its backing capacity and has
its contents reset in place, while a buffer whose capacity exceeds the
threshold is replaced by the zero value: a fresh zero-capacity buffer. -/
theorem claim_c9_recycle (msg : logMessage) :
    (msg.buffer.cap ≤ MaxFreeMsgSize →
      recycleMsg msg = { msg with buffer := { data := "", cap := msg.buffer.cap } }) ∧
    (MaxFreeMsgSize < msg.buffer.cap →
      recycleMsg msg = { id := msg.id, buffer := { data := "", cap := 0 }, level := 0 }) := by
  constructor
  · intro h
    rw [recycleMsg, if_neg (by omega)]
    rfl
  · intro h
    rw [recycleMsg, if_pos (by omega)]

theorem claim_c9_recycle_witness :
    recycleMsg { id := 0, buffer := { data := "x", cap := 100 }, level := 5 } =
      { id := 0, buffer := { data := "", cap := 100 }, level := 5 } ∧
    recycleMsg { id := 1, buffer := { data := "y", cap := 9000 }, level := 5 } =
      { id := 1, buffer := { data := "", cap := 0 }, level := 0 } :=
  ⟨(claim_c9_recycle { id := 0, buffer := { data := "x", cap := 100 }, level := 5 }).1 (by decide),
   (claim_c9_recycle { id := 1, buffer := { data := "y", cap := 9000 }, level := 5 }).2 (by decide)⟩

/-- C1: contrary to the claim, `queueMsgDirect` attaches
`levelSysLog[Levels.Debug]` (= `LOG_DEBUG` = 7) to every message it queues,
whatever severity the `queueMsg` call was made with, so the priority used by
the local-facility call is always `LOG_USER|LOG_DEBUG` = 15 and the remote
sink prefix is always `"<15>"`.  The fixed table itself would give
`LOG_INFO` for `Info`, i.e. priority 14 and prefix `"<14>"` — the value the
claim expects — but the table is never consulted at the call's severity. -/
theorem claim_c1_priority (lvl : Level) (pfx body : String) (s : PState)
    (m : logMessage) (rest : List logMessage)
    (hsd : s.shuttingDown = false) (hf : s.freeMessages = m :: rest)
    (hq : s.messages.length < NumMessages) :
    (∃ msg1, (queueMsg lvl pfx body s).2.messages = s.messages ++ [msg1] ∧
        msg1.level = LOG_DEBUG ∧
        writeSyslogPriority msg1 = 15 ∧
        writeCustomSocketBytes msg1 = "<15>" ++ msg1.buffer.data) ∧
    LOG_USER ||| levelSysLog Level.Info = 14 := by
  have hlev : (renderMsg m (levelMapFmt lvl ++ " " ++ pfx ++ " " ++ body)).level =
      LOG_DEBUG := rfl
  have h15 : ("<" ++ toString (LOG_USER ||| LOG_DEBUG) ++ ">" : String) = "<15>" := by decide
  refine ⟨⟨renderMsg m (levelMapFmt lvl ++ " " ++ pfx ++ " " ++ body), ?_, hlev, ?_, ?_⟩,
    by decide⟩
  · rw [queueMsg, queueMsgDirect_enqueue _ _ _ _ hsd hf hq]
  · rw [writeSyslogPriority, hlev]
    decide
  · rw [writeCustomSocketBytes, hlev, h15]

theorem claim_c1_priority_witness :
    (∃ msg1, (queueMsg Level.Info "svc1" "ready" oneMsgState).2.messages =
        oneMsgState.messages ++ [msg1] ∧
        msg1.level = LOG_DEBUG ∧
        writeSyslogPriority msg1 = 15 ∧
        writeCustomSocketBytes msg1 = "<15>" ++ msg1.buffer.data) ∧
    LOG_USER ||| levelSysLog Level.Info = 14 :=
  claim_c1_priority Level.Info "svc1" "ready" oneMsgState (mkMsg 0) [] rfl rfl (by decide)

/-- C2 counterexample: logging severity `Error`, prefix `"svc1"`, body
`"disk full"` on a state with one fresh pooled message does not queue the
claimed string `"[Error] svc1 disk full"` + terminator; it queues
`"[Error]  svc1 disk full"` + terminator — two spaces after the bracketed
tag, because the `levelMapFmt` entry already ends in a space and the
`"%s %s %s"` format inserts another. -/
theorem claim_c2_counterexample :
    ((queueMsg Level.Error "svc1" "disk full" oneMsgState).2.messages.map
        fun m => m.buffer.data) ≠
      ["[Error] svc1 disk full" ++ String.singleton (Char.ofNat 0)] ∧
    ((queueMsg Level.Error "svc1" "disk full" oneMsgState).2.messages.map
        fun m => m.buffer.data) =
      ["[Error]  svc1 disk full" ++ String.singleton (Char.ofNat 0)] := by
  constructor <;> decide

/-- C2 as amended: the string submitted to the pending queue is the
bracketed level tag, TWO spaces, the prefix, one space, the body, and a
single NUL terminator byte. -/
theorem claim_c2_rendered (lvl : Level) (pfx body : String) (s : PState)
    (m : logMessage) (rest : List logMessage)
    (hsd : s.shuttingDown = false) (hf : s.freeMessages = m :: rest)
    (hempty : m.buffer.data = "") (hq : s.messages.length < NumMessages) :
    ∃ msg1, (queueMsg lvl pfx body s).2.messages = s.messages ++ [msg1] ∧
      msg1.buffer.data =
        "[" ++ levelName lvl ++ "]  " ++ pfx ++ " " ++ body ++
          String.singleton (Char.ofNat 0) := by
  refine ⟨renderMsg m (levelMapFmt lvl ++ " " ++ pfx ++ " " ++ body), ?_, ?_⟩
  · rw [queueMsg, queueMsgDirect_enqueue _ _ _ _ hsd hf hq]
  · have hdata : (renderMsg m (levelMapFmt lvl ++ " " ++ pfx ++ " " ++ body)).buffer.data =
        m.buffer.data ++ (levelMapFmt lvl ++ " " ++ pfx ++ " " ++ body) ++
          String.singleton (Char.ofNat 0) := rfl
    rw [hdata, hempty]
    have h0 : ("" : String) ++ (levelMapFmt lvl ++ " " ++ pfx ++ " " ++ body) =
        levelMapFmt lvl ++ " " ++ pfx ++ " " ++ body := rfl
    rw [h0]
    have htag : levelMapFmt lvl ++ " " = "[" ++ levelName lvl ++ "]  " := by
      cases lvl <;> rfl
    rw [htag]

theorem claim_c2_rendered_witness :
    ∃ msg1, (queueMsg Level.Error "svc1" "disk full" oneMsgState).2.messages =
      oneMsgState.messages ++ [msg1] ∧
      msg1.buffer.data =
        "[" ++ levelName Level.Error ++ "]  " ++ "svc1" ++ " " ++ "disk full" ++
          String.singleton (Char.ofNat 0) :=
  claim_c2_rendered Level.Error "svc1" "disk full" oneMsgState (mkMsg 0) []
    rfl rfl rfl (by decide)

/-- C5: consecutive acquisitions and the exhaustion behaviour.  First part:
as many back-to-back `queueMsgDirect` calls as there are free messages all
acquire one (the pool drains to empty, nothing is dropped, every call
returns a nil error).  Second part — where the code diverges from the
claim: once no free message remains, the next call does NOT return an
error; it bumps `dropCount` and returns nil, so the producer is never told
the line was dropped (no `PoolExhausted`-style error is returned; the
declared `ErrFreeMessageUnderflow` is never used by the source). -/
theorem claim_c5_exhaustion :
    (∀ (entries : List String) (s : PState), s.shuttingDown = false →
        entries.length = s.freeMessages.length →
        s.messages.length + s.freeMessages.length ≤ NumMessages →
        (runCalls entries s).1 = List.replicate entries.length none ∧
        (runCalls entries s).2.freeMessages = [] ∧
        (runCalls entries s).2.dropCount = s.dropCount ∧
        (runCalls entries s).2.shuttingDown = false ∧
        (runCalls entries s).2.messages.length = s.messages.length + entries.length) ∧
    (∀ (entry : String) (s : PState), s.shuttingDown = false →
        s.freeMessages = [] →
        queueMsgDirect entry s =
          (none, { s with
            logCount := inc64 s.logCount,
            dropCount := inc64 s.dropCount })) := by
  constructor
  · intro entries
    induction entries with
    | nil =>
      intro s hsd hlen hcap
      have hf : s.freeMessages = [] :=
        List.eq_nil_of_length_eq_zero (by simpa using hlen.symm)
      simp [runCalls, hf, hsd]
    | cons e es ih =>
      intro s hsd hlen hcap
      obtain ⟨m, rest, hf⟩ : ∃ m rest, s.freeMessages = m :: rest := by
        cases hfm : s.freeMessages with
        | nil => rw [hfm] at hlen; simp at hlen
        | cons a l => exact ⟨a, l, rfl⟩
      have hflen : s.freeMessages.length = rest.length + 1 := by
        rw [hf]; simp
      have hq : s.messages.length < NumMessages := by omega
      have hlen2 : es.length = rest.length := by
        simp at hlen; omega
      have hstep := queueMsgDirect_enqueue e s m rest hsd hf hq
      have hrec := ih { s with
          logCount := inc64 s.logCount,
          freeMessages := rest,
          messages := s.messages ++ [renderMsg m e],
          enqueuedTrace := s.enqueuedTrace ++ [(renderMsg m e).buffer.data] }
        hsd (by simpa using hlen2) (by simp; omega)
      simp only [runCalls, hstep]
      refine ⟨?_, hrec.2.1, hrec.2.2.1, hrec.2.2.2.1, ?_⟩
      · simp only [List.length_cons, List.replicate_succ]
        exact congrArg (none :: ·) hrec.1
      · rw [hrec.2.2.2.2]
        simp
        omega
  · intro entry s hsd hf
    exact queueMsgDirect_drop entry s hsd hf

theorem claim_c5_exhaustion_witness :
    ((runCalls ["a"] oneMsgState).1 = List.replicate 1 none ∧
      (runCalls ["a"] oneMsgState).2.freeMessages = [] ∧
      (runCalls ["a"] oneMsgState).2.dropCount = oneMsgState.dropCount ∧
      (runCalls ["a"] oneMsgState).2.shuttingDown = false ∧
      (runCalls ["a"] oneMsgState).2.messages.length = oneMsgState.messages.length + 1) ∧
    queueMsgDirect "b" emptyPoolState =
      (none, { emptyPoolState with
        logCount := inc64 emptyPoolState.logCount,
        dropCount := inc64 emptyPoolState.dropCount }) :=
  ⟨claim_c5_exhaustion.1 ["a"] oneMsgState rfl rfl (by decide),
   claim_c5_exhaustion.2 "b" emptyPoolState rfl rfl⟩

/-- C10: whenever `queueMsgDirect` returns a non-nil error after having
acquired a free message, that error is `ErrLogFullBuf` and the deferred
cleanup has already released the (rendered) message back onto the free
channel before the call returns. -/
theorem claim_c10_release_on_error (entry : String) (s : PState)
    (m : logMessage) (rest : List logMessage) (e : GoError)
    (hsd : s.shuttingDown = false) (hf : s.freeMessages = m :: rest)
    (hlen : s.freeMessages.length ≤ NumMessages)
    (herr : (queueMsgDirect entry s).1 = some e) :
    e = GoError.LogFullBuf ∧
    (queueMsgDirect entry s).2.freeMessages = rest ++ [renderMsg m entry] := by
  by_cases hq : s.messages.length < NumMessages
  · rw [queueMsgDirect_enqueue entry s m rest hsd hf hq] at herr
    simp at herr
  · have hrl : rest.length < NumMessages := by
      rw [hf] at hlen; simp at hlen; omega
    rw [queueMsgDirect_full entry s m rest hsd hf hq] at herr ⊢
    rw [freeMsg_of_lt _ _ (by simpa using hrl)] at herr ⊢
    simp at herr
    exact ⟨herr.symm, rfl⟩

theorem claim_c10_release_on_error_witness :
    (queueMsgDirect "x" fullQueueState).2.freeMessages =
      [] ++ [renderMsg (mkMsg 0) "x"] := by
  have hq : ¬ fullQueueState.messages.length < NumMessages := by
    simp [fullQueueState]
  have herr : (queueMsgDirect "x" fullQueueState).1 = some GoError.LogFullBuf := by
    rw [queueMsgDirect_full "x" fullQueueState (mkMsg 0) [] rfl rfl hq]
  exact (claim_c10_release_on_error "x" fullQueueState (mkMsg 0) []
    GoError.LogFullBuf rfl rfl (by decide) herr).2

/-- C4: once the shutting-down flag is set, every `queueMsgDirect` call
fails with `ErrUnavailable` and leaves the whole state (in particular the
pending queue) untouched; and from any reachable shutting-down state, no
step increases the pending-queue length. -/
theorem claim_c4_shutdown_rejects :
    (∀ (entry : String) (s : PState), s.shuttingDown = true →
        queueMsgDirect entry s = (some GoError.Unavailable, s)) ∧
    (∀ s s' : PState, Reachable s → Step s s' → s.shuttingDown = true →
        s'.messages.length ≤ s.messages.length) := by
  constructor
  · exact fun entry s hsd => queueMsgDirect_unavailable entry s hsd
  · intro s s' hreach hstep hsd
    have hinv := reachable_inv hreach
    cases hstep with
    | acquireOk m rest hsd2 hf => rw [hsd] at hsd2
    | acquireDrop hsd2 hf => rw [hsd] at hsd2
    | enqueueOk m ph1 ph2 entry hph hq =>
      have h0 := hinv.sdHolding hsd
      rw [hph] at h0; simp at h0
    | enqueueFull m ph1 ph2 entry hph hq =>
      have h0 := hinv.sdHolding hsd
      rw [hph] at h0; simp at h0
    | dequeueMsg m rest hq hw =>
      show rest.length ≤ s.messages.length
      rw [hq]; simp
    | writerProcess m fail hw => simp
    | writerExit hc hq hw he => exact Nat.le_refl _
    | drainStart hph hc => exact Nat.le_refl _
    | drainAgain hph hc => exact Nat.le_refl _
    | drainReturn hsd2 he => exact Nat.le_refl _
    | setSocket => exact Nat.le_refl _
    | configError => exact Nat.le_refl _

theorem claim_c4_shutdown_rejects_witness :
    queueMsgDirect "x" drainState = (some GoError.Unavailable, drainState) ∧
    exitState.messages.length ≤ drainState.messages.length :=
  ⟨claim_c4_shutdown_rejects.1 "x" drainState rfl,
   claim_c4_shutdown_rejects.2 drainState exitState reach_drain
     (Step.writerExit drainState rfl rfl rfl rfl) rfl⟩

/-- C3: in every reachable state in which the shutdown call has returned,
the writer has exited, the pending queue is empty, no message is held by
the writer, and the sequence of contents the writer wrote equals, in order
and with multiplicity, the sequence of contents enqueued — every enqueued
message was dequeued and written exactly once, no loss, no duplication.
Moreover the step on which the writer exits closes the remote socket if one
is configured. -/
theorem claim_c3_exactly_once :
    (∀ s : PState, Reachable s → s.drainReturned = true →
        s.writerExited = true ∧ s.writtenTrace = s.enqueuedTrace ∧
        s.messages = [] ∧ s.writerHolding = none) ∧
    (∀ s s' : PState, Step s s' → s.writerExited = false → s'.writerExited = true →
        s.socketConfigured = true → s'.socketClosed = true) := by
  constructor
  · intro s hreach hret
    have hinv := reachable_inv hreach
    have hwe := hinv.returned hret
    have hex := hinv.exited hwe
    refine ⟨hwe, ?_, hex.2.1, hex.2.2⟩
    have ht := hinv.trace
    rw [hex.2.1, hex.2.2] at ht
    simpa using ht.symm
  · intro s s' hstep hne hex2 hcfg
    cases hstep with
    | acquireOk m rest hsd hf => exact absurd hex2 (by simp [hne])
    | acquireDrop hsd hf => exact absurd hex2 (by simp [hne])
    | enqueueOk m ph1 ph2 entry hph hq => exact absurd hex2 (by simp [hne])
    | enqueueFull m ph1 ph2 entry hph hq => exact absurd hex2 (by simp [hne])
    | dequeueMsg m rest hq hw => exact absurd hex2 (by simp [hne])
    | writerProcess m fail hw => exact absurd hex2 (by simp [hne])
    | writerExit hc hq hw he => simp [hcfg]
    | drainStart hph hc => exact absurd hex2 (by simp [hne])
    | drainAgain hph hc => exact absurd hex2 (by simp [hne])
    | drainReturn hsd he => exact absurd hex2 (by simp [hne])
    | setSocket => exact absurd hex2 (by simp [hne])
    | configError => exact absurd hex2 (by simp [hne])

theorem claim_c3_exactly_once_witness :
    (returnState.writerExited = true ∧
      returnState.writtenTrace = returnState.enqueuedTrace ∧
      returnState.messages = [] ∧ returnState.writerHolding = none) ∧
    exitState.socketClosed = true :=
  ⟨claim_c3_exactly_once.1 returnState reach_return rfl,
   claim_c3_exactly_once.2 drainState exitState
     (Step.writerExit drainState rfl rfl rfl rfl) rfl rfl rfl⟩

/-- C6: in every reachable state, the number of free messages plus pending
messages plus in-flight messages (producer-held and writer-held) is at most
`NumMessages`, no message object is duplicated (the identities across all
four places are pairwise distinct), and whenever some producer holds an
acquired message the pending channel is strictly below capacity — so the
buffered send in `queueMsgDirect` always succeeds and the `ErrLogFullBuf`
branch can never be taken. -/
theorem claim_c6_conservation (s : PState) (h : Reachable s) :
    (s.freeMessages.length + s.prodHolding.length + s.messages.length +
      s.writerHolding.toList.length ≤ NumMessages) ∧
    ((s.freeMessages ++ s.prodHolding ++ s.messages ++ s.writerHolding.toList).map
        logMessage.id).Nodup ∧
    (s.prodHolding ≠ [] → s.messages.length < NumMessages) := by
  have hinv := reachable_inv h
  have hcard := conserve_card hinv.conserve
  refine ⟨by omega, ?_, ?_⟩
  · have hnd : Multiset.Nodup (circIds s) := by
      rw [hinv.conserve]
      exact Multiset.coe_nodup.mpr (List.nodup_range _)
    exact Multiset.coe_nodup.mp hnd
  · intro hne
    have hpos : 0 < s.prodHolding.length := List.length_pos.mpr hne
    omega

theorem claim_c6_conservation_witness :
    (initPState.freeMessages.length + initPState.prodHolding.length +
      initPState.messages.length + initPState.writerHolding.toList.length ≤
        NumMessages) ∧
    ((initPState.freeMessages ++ initPState.prodHolding ++ initPState.messages ++
        initPState.writerHolding.toList).map logMessage.id).Nodup ∧
    (initPState.prodHolding ≠ [] → initPState.messages.length < NumMessages) :=
  claim_c6_conservation initPState Reachable.refl

theorem inc64_ne (n : Nat) : inc64 n ≠ n := by
  rw [inc64, show (2 : Nat) ^ 64 = 18446744073709551616 by norm_num]
  omega

/-- C8: across every atomic step, the drop counter changes exactly when the
step is a `queueMsgDirect` call that found the free channel empty (pool
exhaustion), in which case it increases by exactly one; and any step that
touches the error counter (queue-full, write failure, free-list overflow,
`SetLogName` failure) leaves the drop counter unchanged. -/
theorem claim_c8_drop_counter (s s' : PState) (h : Step s s') :
    (s'.dropCount ≠ s.dropCount ↔
      (s.shuttingDown = false ∧ s.freeMessages = [] ∧
        s' = { s with
          logCount := inc64 s.logCount,
          dropCount := inc64 s.dropCount })) ∧
    (s'.dropCount ≠ s.dropCount → s'.dropCount = inc64 s.dropCount) ∧
    (s'.errCount ≠ s.errCount → s'.dropCount = s.dropCount) := by
  cases h
  case acquireDrop hsd hf =>
    exact ⟨⟨fun _ => ⟨hsd, hf, rfl⟩, fun _ => inc64_ne s.dropCount⟩,
      fun _ => rfl, fun hne => absurd rfl hne⟩
  all_goals
    refine ⟨⟨fun hne => absurd (by simp) hne, fun hr => ?_⟩,
      fun hne => absurd (by simp) hne, fun _ => by simp⟩
  all_goals
    intro _
    have h1 := congrArg PState.dropCount hr.2.2
    simp at h1
    exact inc64_ne _ h1.symm

theorem claim_c8_drop_counter_witness :
    ({ emptyPoolState with
        logCount := inc64 emptyPoolState.logCount,
        dropCount := inc64 emptyPoolState.dropCount }).dropCount ≠
      emptyPoolState.dropCount :=
  (claim_c8_drop_counter emptyPoolState _
    (Step.acquireDrop emptyPoolState rfl rfl)).1.mpr ⟨rfl, rfl, rfl⟩

/-- C7 counterexample: a second `drainTheQueue` invocation after the first
one has completed is fatal — it reaches `close(messages)` on an
already-closed channel, a Go runtime panic.  `panicState` is reachable by
exactly that scenario (configure socket, first drain, writer exit, drain
returns, second drain), contradicting the claim that a repeat invocation is
a no-op or a clean `AlreadyStopped` error and never fatal (the code has no
`AlreadyStopped`-style error at all). -/
theorem claim_c7_counterexample :
    Reachable panicState ∧ panicState.panicked = true :=
  ⟨reach_panic, rfl⟩

/-- C7 as amended: `drainTheQueue` is deterministic in both situations, but
a repeat invocation panics instead of being a no-op or an error: from any
quiescent state whose pending channel is already closed, the call panics
(close of a closed channel); from a state whose channel is not yet closed,
the call sets the flag and closes the channel without panicking. -/
theorem claim_c7_second_drain_panics (s : PState) (hph : s.prodHolding = []) :
    (s.messagesClosed = true → Step s { s with panicked := true }) ∧
    (s.messagesClosed = false →
      Step s { s with shuttingDown := true, messagesClosed := true } ∧
      ({ s with shuttingDown := true, messagesClosed := true }).panicked =
        s.panicked) := by
  constructor
  · intro hc
    exact Step.drainAgain s hph hc
  · intro hc
    exact ⟨Step.drainStart s hph hc, rfl⟩

theorem claim_c7_second_drain_panics_witness :
    Step returnState { returnState with panicked := true } ∧
    Step initPState
      { initPState with shuttingDown := true, messagesClosed := true } :=
  ⟨(claim_c7_second_drain_panics returnState rfl).1 rfl,
   ((claim_c7_second_drain_panics initPState rfl).2 rfl).1⟩
